import Mathlib

/-!
Shallow embedding of `src/sign_translator/backend/main.py` (Sign Translator
backend) and verification of its specification.

Modelling conventions:

* Python strings are modelled as lists of Unicode code points, `List Nat`
  (`str` converts a Lean string literal to this representation).
* Python's character-level operations `str.lower`, `str.isalnum`,
  `str.isspace` consult Unicode tables.  They are modelled exactly on the
  ASCII range (code points < 128), and additionally on the representative
  non-ASCII letter U+00E9 ('é', code point 233), for which Python gives
  `isalnum() = True`, `isspace() = False` and `lower()` the identity.
  All remaining code points are conservatively treated as
  non-alphanumeric, non-space and fixed by lowercasing; theorems about
  full-Unicode behaviour are read over this domain.
* Side effects (temporary directory allocation, file writes, launching the
  external ffmpeg process, remote API calls) are modelled by explicit
  outcome fields in environment records: each field records whether the
  corresponding Python operation returns normally or raises, and with what
  value/message.  `Except PyExc α` models a Python expression that either
  evaluates to an `α` or raises an exception.
* A raised exception `e` carries `str(e)` as its `msg` field.
-/

/-- Code points of a Lean string literal; models a Python `str` value. -/
def str (s : String) : List Nat := s.data.map Char.toNat

/-- Python `str.isspace` per character, on the modelled domain.
On ASCII the space characters are 9–13 (TAB LF VT FF CR), 28–31
(FS GS RS US) and 32 (SPACE); U+00E9 is not a space. -/
def pyIsSpace (c : Nat) : Bool :=
  c = 32 || c = 9 || c = 10 || c = 11 || c = 12 || c = 13 || (28 ≤ c && c ≤ 31)

/-- Python `str.isalnum` per character, on the modelled domain:
ASCII digits `0-9`, letters `A-Z` and `a-z`, plus U+00E9 ('é'), which
Python classifies as alphanumeric. -/
def pyIsAlnum (c : Nat) : Bool :=
  (48 ≤ c && c ≤ 57) || (65 ≤ c && c ≤ 90) || (97 ≤ c && c ≤ 122) || c = 233

/-- Python `str.lower` per character, on the modelled domain: maps `A-Z`
to `a-z` and fixes everything else (in particular U+00E9, which is
already lowercase in Python). -/
def pyLowerChar (c : Nat) : Nat :=
  if 65 ≤ c && c ≤ 90 then c + 32 else c

/-- Python `str.strip()` (no argument): removes leading and trailing
whitespace characters. -/
def pyStrip (s : List Nat) : List Nat :=
  ((s.dropWhile pyIsSpace).reverse.dropWhile pyIsSpace).reverse

/-- The per-character body of the cleanup comprehension in `tokenize`:
`ch if ch.isalnum() or ch.isspace() else ' '`. -/
def keepChar (c : Nat) : Nat :=
  if pyIsAlnum c || pyIsSpace c then c else 32

/-- `''.join(ch if ch.isalnum() or ch.isspace() else ' ' for ch in text.lower())`
from `tokenize` in `main.py`. -/
def pyCleanup (text : List Nat) : List Nat :=
  (text.map pyLowerChar).map keepChar

/-- Accumulator-style worker for Python `str.split()` (no argument):
splits on runs of whitespace, discarding empty segments.  `acc` holds the
reversed current word. -/
def pySplitAux (acc : List Nat) : List Nat → List (List Nat)
  | [] => if acc.isEmpty then [] else [acc.reverse]
  | c :: rest =>
    if pyIsSpace c then
      if acc.isEmpty then pySplitAux [] rest
      else acc.reverse :: pySplitAux [] rest
    else pySplitAux (c :: acc) rest

/-- Python `str.split()` with no argument. -/
def pySplit (s : List Nat) : List (List Nat) := pySplitAux [] s

/-- `tokenize` from `main.py`:
`cleaned = ''.join(ch if ch.isalnum() or ch.isspace() else ' ' for ch in text.lower())`
then `[w for w in cleaned.split() if w]`. -/
def tokenize (text : List Nat) : List (List Nat) :=
  (pySplit (pyCleanup text)).filter (fun w => !w.isEmpty)

/-- Python `' '.join(ws)`: joins strings with a single space (32). -/
def joinSp : List (List Nat) → List Nat
  | [] => []
  | [w] => w
  | w :: ws => w ++ 32 :: joinSp ws

/-- Python `enumerate(xs, i)`: pairs each element with its index starting
at `i`. -/
def pyEnumerate {α : Type} (i : Nat) : List α → List (Nat × α)
  | [] => []
  | a :: as => (i, a) :: pyEnumerate (i + 1) as

/-- `[{"w": w, "i": i} for i, w in enumerate(words)]` from the `transcribe`
handler: each JSON object `{"w": w, "i": i}` is modelled as the pair
`(w, i)`. -/
def wordPairs (ws : List (List Nat)) : List (List Nat × Nat) :=
  (pyEnumerate 0 ws).map (fun p => (p.2, p.1))

/-- A raised Python exception; `msg` models `str(e)`. -/
structure PyExc where
  msg : List Nat
deriving DecidableEq

/-- `ALLOWED_EXTENSIONS` from `main.py`. -/
def ALLOWED_EXTENSIONS : List (List Nat) :=
  [str ("mp4"), str ("mov"), str ("mkv"), str ("webm"),
   str ("mp3"), str ("wav"), str ("m4a")]

/-- Worker for Python `str.split('.')`: splits on every `'.'` (46),
keeping empty segments. -/
def splitOnDotAux (acc : List Nat) : List Nat → List (List Nat)
  | [] => [acc.reverse]
  | c :: rest =>
    if c = 46 then acc.reverse :: splitOnDotAux [] rest
    else splitOnDotAux (c :: acc) rest

/-- Python `filename.split('.')`. -/
def splitOnDot (s : List Nat) : List (List Nat) := splitOnDotAux [] s

/-- `filename.split('.')[-1].lower()` from the `transcribe` handler.
`split('.')` always yields a nonempty list, so `[-1]` is its last
element. -/
def suffixOf (filename : List Nat) : List Nat :=
  ((splitOnDot filename).getLastD []).map pyLowerChar

/-- `file.filename or "upload"` from the `transcribe` handler: a missing
or empty filename is replaced by `"upload"`. -/
def effName (filename : List Nat) : List Nat :=
  if filename = [] then str ("upload") else filename

/-- Outcomes of the effectful steps of the `transcribe` handler, one field
per Python operation that can raise:
`tempDirOutcome` for `tempfile.TemporaryDirectory()` (step 1),
`readWriteOutcome` for `await file.read()` plus the write to
`input.<ext>` (step 2), `extractOutcome` for `extract_audio` (step 3)
and `transcribeOutcome` for `transcribe_audio` (step 4), whose normal
result is the transcribed text. -/
structure PipelineEnv where
  tempDirOutcome : Except PyExc Unit
  readWriteOutcome : Except PyExc Unit
  extractOutcome : Except PyExc Unit
  transcribeOutcome : Except PyExc (List Nat)

/-- Observable result of one call of the `transcribe` handler:
a 200 JSON body (`text` plus the `words` array), a raised
`HTTPException(status_code, detail)` (rendered by the framework as a JSON
error with that status and detail), or an exception that propagates out
of the handler uncaught. -/
inductive HandlerOutcome where
  | response (text : List Nat) (words : List (List Nat × Nat))
  | httpError (status : Nat) (detail : List Nat)
  | uncaught (e : PyExc)
deriving DecidableEq

/-- Body of the `with tempfile.TemporaryDirectory()` block and the final
response construction in `transcribe`.  Faithful to the source's control
flow: only `extract_audio` and `transcribe_audio` are inside the
`try/except` that re-raises as `HTTPException(500, str(e))`; exceptions
from temp-dir allocation and from persisting the upload propagate
uncaught. -/
def runPipeline (env : PipelineEnv) : HandlerOutcome :=
  match env.tempDirOutcome with
  | .error e => .uncaught e
  | .ok _ =>
    match env.readWriteOutcome with
    | .error e => .uncaught e
    | .ok _ =>
      match env.extractOutcome with
      | .error e => .httpError 500 e.msg
      | .ok _ =>
        match env.transcribeOutcome with
        | .error e => .httpError 500 e.msg
        | .ok text => .response text (wordPairs (tokenize text))

/-- The `transcribe` handler (`POST /api/transcribe`) from `main.py`:
extension validation followed by the processing pipeline. -/
def transcribe (filename : List Nat) (env : PipelineEnv) : HandlerOutcome :=
  if suffixOf (effName filename) ∈ ALLOWED_EXTENSIONS then runPipeline env
  else .httpError 400 (str ("Unsupported file type"))

/-- The fallback stub text of `transcribe_audio`. -/
def placeholderText : List Nat :=
  str ("hello world this is a sample transcription for sign translation demo")

/-- The candidate model names tried by `transcribe_audio`, in source
order. -/
def MODEL_NAMES : List (List Nat) :=
  [str ("gpt-4o-transcribe"), str ("whisper-1")]

/-- The `for model_name in [...]` loop of `transcribe_audio`.  `attempt m`
is the outcome of one remote call with model `m` followed by text
extraction: an exception (caught by the inner `except`, which
`continue`s), or the extracted text, where `[]` models falsy text
(`None` or the empty string, which also `continue`s). -/
def tryModels (attempt : List Nat → Except PyExc (List Nat)) :
    List (List Nat) → List Nat
  | [] => str ("transcription unavailable (OpenAI models not reachable)")
  | m :: rest =>
    match attempt m with
    | .error _ => tryModels attempt rest
    | .ok t => if t = [] then tryModels attempt rest else t

/-- Outcomes of the effectful steps of `transcribe_audio`:
`apiKey` is `os.getenv("OPENAI_API_KEY")`, `clientSetup` the outcome of
`from openai import OpenAI` plus `OpenAI(api_key=api_key)`, and
`attempt` the per-model outcome used by `tryModels`. -/
structure TranscriptionEnv where
  apiKey : Option (List Nat)
  clientSetup : Except PyExc Unit
  attempt : List Nat → Except PyExc (List Nat)

/-- `transcribe_audio` from `main.py`.  The result is `Except` so that a
hypothetical raised exception is representable; the source's `try/except`
structure appears as the `match` on `clientSetup` (whose failure is
rendered as `f"transcription error: {e}"[:500]`, i.e. the whole string is
truncated to 500 characters). -/
def transcribe_audio (env : TranscriptionEnv) : Except PyExc (List Nat) :=
  match env.apiKey with
  | none => .ok placeholderText
  | some key =>
    if key = [] then .ok placeholderText
    else
      match env.clientSetup with
      | .error e => .ok (List.take 500 (str ("transcription error: ") ++ e.msg))
      | .ok _ => .ok (tryModels env.attempt MODEL_NAMES)

/-- `get_ffmpeg_executable` from `main.py`: the argument models
`os.getenv("FFMPEG_PATH")` (`none` when unset).  Python's
`custom.strip() if custom else "ffmpeg"` treats `None` and the empty
string as falsy; any other value is returned stripped. -/
def get_ffmpeg_executable (ffmpegPath : Option (List Nat)) : List Nat :=
  match ffmpegPath with
  | none => str ("ffmpeg")
  | some custom => if custom = [] then str ("ffmpeg") else pyStrip custom

/-- Outcome of `subprocess.run([exe, "-version"], ..., check=False)`:
the process launched and exited with some code (`check=False`, so the
code is not inspected), launching raised `FileNotFoundError`, or
launching raised some other exception. -/
inductive LaunchOutcome where
  | launched (exitCode : Int)
  | fileNotFound
  | raisedOther (e : PyExc)
deriving DecidableEq

/-- `_has_ffmpeg` from `main.py`: only `FileNotFoundError` is caught; any
other exception from launching propagates. -/
def hasFfmpeg (launch : LaunchOutcome) : Except PyExc Bool :=
  match launch with
  | .launched _ => .ok true
  | .fileNotFound => .ok false
  | .raisedOther e => .error e

/-- The `ffmpeg` object of the `GET /api/config` response. -/
structure FfmpegReport where
  configured : List Nat
  resolved : Option (List Nat)
  available : Bool
deriving DecidableEq

/-- `api_config` from `main.py` (`GET /api/config`): `which` models
`shutil.which`; `resolved` is `shutil.which(exe) if exe else None`. -/
def api_config (ffmpegPath : Option (List Nat))
    (which : List Nat → Option (List Nat)) (launch : LaunchOutcome) :
    Except PyExc FfmpegReport :=
  let exe := get_ffmpeg_executable ffmpegPath
  match hasFfmpeg launch with
  | .error e => .error e
  | .ok avail => .ok ⟨exe, if exe = [] then none else which exe, avail⟩

/-- A character allowed inside a produced token: alphanumeric, not
whitespace, not an uppercase ASCII letter. -/
def isTokenCode (c : Nat) : Bool :=
  pyIsAlnum c && !pyIsSpace c && !(65 ≤ c && c ≤ 90)

/-- A nonempty token all of whose characters satisfy `isTokenCode`. -/
def isGeneralToken (t : List Nat) : Bool :=
  !t.isEmpty && t.all isTokenCode

/-- A nonempty token matching `^[a-z0-9]+$`. -/
def isAsciiLowerTok (t : List Nat) : Bool :=
  !t.isEmpty && t.all (fun c => (97 ≤ c && c ≤ 122) || (48 ≤ c && c ≤ 57))

/-- All code points of the string are ASCII. -/
def allAscii (s : List Nat) : Bool := s.all (fun c => c < 128)

/- Concrete environments used by witnesses and counterexamples. -/

/-- A pipeline run in which every step succeeds and transcription yields
"hi there". -/
def envAllOk : PipelineEnv :=
  ⟨.ok (), .ok (), .ok (), .ok (str ("hi there"))⟩

/-- A pipeline run in which persisting the uploaded bytes (step 2)
raises an exception with message "disk full". -/
def envWriteFail : PipelineEnv :=
  ⟨.ok (), .error ⟨str ("disk full")⟩, .ok (), .ok []⟩

/-- A pipeline run in which audio extraction (step 3) raises an exception
with message "boom". -/
def envExtractFail : PipelineEnv :=
  ⟨.ok (), .ok (), .error ⟨str ("boom")⟩, .ok []⟩

/-- A second all-success pipeline run with different transcribed text,
used to observe environment-independence of rejection. -/
def envAllOk2 : PipelineEnv :=
  ⟨.ok (), .ok (), .ok (), .ok (str ("other words"))⟩

/-- A transcription environment with no API credential configured. -/
def envNoKey : TranscriptionEnv :=
  ⟨none, .ok (), fun _ => .ok []⟩

/-- A transcription environment in which the credential is set and client
setup raises an exception whose message is 500 copies of 'a' (97). -/
def envSetupFail : TranscriptionEnv :=
  ⟨some (str ("k")), .error ⟨List.replicate 500 97⟩, fun _ => .ok []⟩

/-- A transcription environment in which the credential is set and client
setup raises an exception with message "boom". -/
def envSetupFailShort : TranscriptionEnv :=
  ⟨some (str ("k")), .error ⟨str ("boom")⟩, fun _ => .ok []⟩

example : tokenize (str ("Hello, World!  42")) =
    [str ("hello"), str ("world"), str ("42")] := by decide
example : tokenize (str ("é")) = [[233]] := by decide
example : suffixOf (str ("a.MP4")) = str ("mp4") := by decide
example : suffixOf (str ("mp4")) = str ("mp4") := by decide
example : get_ffmpeg_executable (some (str ("  "))) = [] := by decide

/- Helper lemmas. -/

theorem pyLowerChar_not_upper (c : Nat) :
    ¬(65 ≤ pyLowerChar c ∧ pyLowerChar c ≤ 90) := by
  unfold pyLowerChar
  split
  next h => simp only [Bool.and_eq_true, decide_eq_true_eq] at h; omega
  next h => simp only [Bool.and_eq_true, decide_eq_true_eq, not_and, not_le] at h; omega

theorem pyLowerChar_fixed {c : Nat} (h : ¬(65 ≤ c ∧ c ≤ 90)) : pyLowerChar c = c := by
  unfold pyLowerChar
  rw [if_neg]
  simpa using h

theorem pyLowerChar_idem (c : Nat) : pyLowerChar (pyLowerChar c) = pyLowerChar c :=
  pyLowerChar_fixed (pyLowerChar_not_upper c)

theorem pyLowerChar_ascii {c : Nat} (h : c < 128) : pyLowerChar c < 128 := by
  unfold pyLowerChar
  split
  next h2 => simp only [Bool.and_eq_true, decide_eq_true_eq] at h2; omega
  next => omega

theorem pySplitAux_ne_nil : ∀ (s acc : List Nat), [] ∉ pySplitAux acc s := by
  intro s
  induction s with
  | nil =>
    intro acc hmem
    cases acc with
    | nil => simp [pySplitAux] at hmem
    | cons a as => simp [pySplitAux] at hmem
  | cons d rest ih =>
    intro acc hmem
    by_cases hd : pyIsSpace d
    · cases acc with
      | nil =>
        simp only [pySplitAux, hd, if_true, List.isEmpty_nil] at hmem
        exact ih [] hmem
      | cons a as =>
        have heq : pySplitAux (a :: as) (d :: rest) =
            (a :: as).reverse :: pySplitAux [] rest := by
          simp [pySplitAux, hd]
        rw [heq] at hmem
        rcases List.mem_cons.mp hmem with h1 | h2
        · exact (List.cons_ne_nil a as) (List.reverse_eq_nil_iff.mp h1.symm)
        · exact ih [] h2
    · have heq : pySplitAux acc (d :: rest) = pySplitAux (d :: acc) rest := by
        simp [pySplitAux, hd]
      rw [heq] at hmem
      exact ih (d :: acc) hmem

theorem pySplitAux_chars (Q : Nat → Prop) :
    ∀ (s acc : List Nat), (∀ c ∈ acc, Q c) → (∀ c ∈ s, pyIsSpace c = false → Q c) →
    ∀ w ∈ pySplitAux acc s, ∀ c ∈ w, Q c := by
  intro s
  induction s with
  | nil =>
    intro acc hacc _ w hw c hc
    cases acc with
    | nil => simp [pySplitAux] at hw
    | cons a as =>
      have heq : pySplitAux (a :: as) [] = [(a :: as).reverse] := by
        simp [pySplitAux]
      rw [heq] at hw
      rcases List.mem_singleton.mp hw with rfl
      exact hacc c (List.mem_reverse.mp hc)
  | cons d rest ih =>
    intro acc hacc hs w hw c hc
    by_cases hd : pyIsSpace d
    · cases acc with
      | nil =>
        simp only [pySplitAux, hd, if_true, List.isEmpty_nil] at hw
        exact ih [] (by simp) (fun x hx hxs => hs x (List.mem_cons_of_mem _ hx) hxs) w hw c hc
      | cons a as =>
        have heq : pySplitAux (a :: as) (d :: rest) =
            (a :: as).reverse :: pySplitAux [] rest := by
          simp [pySplitAux, hd]
        rw [heq] at hw
        rcases List.mem_cons.mp hw with h1 | h2
        · subst h1
          exact hacc c (List.mem_reverse.mp hc)
        · exact ih [] (by simp) (fun x hx hxs => hs x (List.mem_cons_of_mem _ hx) hxs) w h2 c hc
    · have heq : pySplitAux acc (d :: rest) = pySplitAux (d :: acc) rest := by
        simp [pySplitAux, hd]
      rw [heq] at hw
      refine ih (d :: acc) ?_ (fun x hx hxs => hs x (List.mem_cons_of_mem _ hx) hxs) w hw c hc
      intro x hx
      rcases List.mem_cons.mp hx with rfl | hx'
      · exact hs x (List.mem_cons_self _ _) (by simpa using hd)
      · exact hacc x hx'

theorem mem_pyCleanup {c : Nat} {text : List Nat} (hc : c ∈ pyCleanup text)
    (hns : pyIsSpace c = false) :
    pyIsAlnum c = true ∧ ¬(65 ≤ c ∧ c ≤ 90) ∧ pyLowerChar c = c ∧
      (allAscii text = true → c < 128) := by
  unfold pyCleanup at hc
  rw [List.map_map] at hc
  rcases List.mem_map.mp hc with ⟨c0, hc0, hceq⟩
  simp only [Function.comp] at hceq
  have hkeep : pyIsAlnum (pyLowerChar c0) = true ∧ c = pyLowerChar c0 := by
    unfold keepChar at hceq
    by_cases hk : pyIsAlnum (pyLowerChar c0) || pyIsSpace (pyLowerChar c0)
    · rw [if_pos hk] at hceq
      subst hceq
      rcases (Bool.or_eq_true _ _).mp hk with h | h
      · exact ⟨h, rfl⟩
      · rw [h] at hns
        exact absurd hns (by simp)
    · rw [if_neg hk] at hceq
      subst hceq
      simp [pyIsSpace] at hns
  obtain ⟨halnum, rfl⟩ := hkeep
  refine ⟨halnum, pyLowerChar_not_upper c0, pyLowerChar_idem c0, ?_⟩
  intro hascii
  have hc0lt : c0 < 128 := by
    rw [allAscii, List.all_eq_true] at hascii
    simpa using hascii c0 hc0
  exact pyLowerChar_ascii hc0lt

theorem tokenize_sound (text : List Nat) :
    ∀ w ∈ tokenize text, w ≠ [] ∧ ∀ c ∈ w,
      pyIsSpace c = false ∧ pyIsAlnum c = true ∧ pyLowerChar c = c ∧
        ¬(65 ≤ c ∧ c ≤ 90) ∧ (allAscii text = true → c < 128) := by
  intro w hw
  have hw' : w ∈ pySplit (pyCleanup text) := List.mem_of_mem_filter hw
  constructor
  · intro hnil
    subst hnil
    exact pySplitAux_ne_nil (pyCleanup text) [] hw'
  · intro c hc
    have hmem : c ∈ pyCleanup text ∧ pyIsSpace c = false := by
      refine pySplitAux_chars (fun x => x ∈ pyCleanup text ∧ pyIsSpace x = false)
        (pyCleanup text) [] (by simp) ?_ w hw' c hc
      intro x hx hxs
      exact ⟨hx, hxs⟩
    obtain ⟨hcl, hns⟩ := hmem
    obtain ⟨h1, h2, h3, h4⟩ := mem_pyCleanup hcl hns
    exact ⟨hns, h1, h3, h2, h4⟩

theorem tokenize_eq_pySplit (text : List Nat) :
    tokenize text = pySplit (pyCleanup text) := by
  unfold tokenize
  rw [List.filter_eq_self]
  intro w hw
  cases w with
  | nil => exact absurd hw (pySplitAux_ne_nil (pyCleanup text) [])
  | cons a as => simp

theorem mapIdOf {α : Type} (f : α → α) :
    ∀ (l : List α), (∀ x ∈ l, f x = x) → l.map f = l := by
  intro l
  induction l with
  | nil => intro _; rfl
  | cons a as ih =>
    intro h
    simp only [List.map_cons]
    rw [h a (List.mem_cons_self _ _), ih (fun x hx => h x (List.mem_cons_of_mem _ hx))]

theorem joinSp_mem {c : Nat} : ∀ {ws : List (List Nat)}, c ∈ joinSp ws →
    c = 32 ∨ ∃ w ∈ ws, c ∈ w := by
  intro ws
  induction ws with
  | nil => intro h; simp [joinSp] at h
  | cons w ws ih =>
    intro h
    cases ws with
    | nil =>
      right
      exact ⟨w, List.mem_cons_self _ _, by rw [show joinSp [w] = w from rfl] at h; exact h⟩
    | cons w2 ws2 =>
      rw [show joinSp (w :: w2 :: ws2) = w ++ 32 :: joinSp (w2 :: ws2) from rfl] at h
      rcases List.mem_append.mp h with h1 | h2
      · right
        exact ⟨w, List.mem_cons_self _ _, h1⟩
      · rcases List.mem_cons.mp h2 with rfl | h3
        · left; rfl
        · rcases ih h3 with h4 | ⟨u, hu, hcu⟩
          · left; exact h4
          · right; exact ⟨u, List.mem_cons_of_mem _ hu, hcu⟩

theorem pySplitAux_append_word :
    ∀ (w rest acc : List Nat), (∀ c ∈ w, pyIsSpace c = false) →
    pySplitAux acc (w ++ rest) = pySplitAux (w.reverse ++ acc) rest := by
  intro w
  induction w with
  | nil => intro rest acc _; simp
  | cons c w' ih =>
    intro rest acc hw
    have hc : pyIsSpace c = false := hw c (List.mem_cons_self _ _)
    have heq : pySplitAux acc ((c :: w') ++ rest) = pySplitAux (c :: acc) (w' ++ rest) := by
      simp [pySplitAux, hc]
    rw [heq, ih rest (c :: acc) (fun x hx => hw x (List.mem_cons_of_mem _ hx))]
    congr 1
    simp

theorem pySplit_joinSp :
    ∀ (ws : List (List Nat)),
      (∀ w ∈ ws, w ≠ [] ∧ ∀ c ∈ w, pyIsSpace c = false) →
      pySplit (joinSp ws) = ws := by
  intro ws
  induction ws with
  | nil => intro _; rfl
  | cons w ws ih =>
    intro h
    obtain ⟨hwne, hwch⟩ := h w (List.mem_cons_self _ _)
    cases ws with
    | nil =>
      have h1 : pySplit (joinSp [w]) = pySplitAux w.reverse [] := by
        have h2 := pySplitAux_append_word w [] [] hwch
        simpa [pySplit, joinSp] using h2
      rw [h1]
      cases hrev : w.reverse with
      | nil => exact absurd (List.reverse_eq_nil_iff.mp hrev) hwne
      | cons a as =>
        have h3 : pySplitAux (a :: as) [] = [(a :: as).reverse] := by
          simp [pySplitAux]
        rw [h3, ← hrev, List.reverse_reverse]
    | cons w2 ws2 =>
      have h1 : pySplit (joinSp (w :: w2 :: ws2)) =
          pySplitAux w.reverse (32 :: joinSp (w2 :: ws2)) := by
        rw [show joinSp (w :: w2 :: ws2) = w ++ 32 :: joinSp (w2 :: ws2) from rfl]
        have h2 := pySplitAux_append_word w (32 :: joinSp (w2 :: ws2)) [] hwch
        simpa [pySplit] using h2
      rw [h1]
      cases hrev : w.reverse with
      | nil => exact absurd (List.reverse_eq_nil_iff.mp hrev) hwne
      | cons a as =>
        have h2 : pySplitAux (a :: as) (32 :: joinSp (w2 :: ws2)) =
            (a :: as).reverse :: pySplitAux [] (joinSp (w2 :: ws2)) := by
          simp [pySplitAux, pyIsSpace]
        rw [h2, ← hrev, List.reverse_reverse]
        congr 1
        exact ih (fun u hu => h u (List.mem_cons_of_mem _ hu))

theorem pyEnumerate_map_snd {α : Type} : ∀ (l : List α) (i : Nat),
    (pyEnumerate i l).map Prod.snd = l := by
  intro l
  induction l with
  | nil => intro i; rfl
  | cons a as ih => intro i; simp [pyEnumerate, ih]

theorem pyEnumerate_map_fst {α : Type} : ∀ (l : List α) (i : Nat),
    (pyEnumerate i l).map Prod.fst = List.range' i l.length := by
  intro l
  induction l with
  | nil => intro i; rfl
  | cons a as ih =>
    intro i
    have h1 : (pyEnumerate i (a :: as)).map Prod.fst =
        i :: (pyEnumerate (i + 1) as).map Prod.fst := rfl
    rw [h1, ih]
    rfl

theorem pyEnumerate_length {α : Type} : ∀ (l : List α) (i : Nat),
    (pyEnumerate i l).length = l.length := by
  intro l
  induction l with
  | nil => intro i; rfl
  | cons a as ih => intro i; simp [pyEnumerate, ih]

theorem wordPairs_map_fst (ws : List (List Nat)) : (wordPairs ws).map Prod.fst = ws := by
  unfold wordPairs
  rw [List.map_map]
  have h : (Prod.fst ∘ fun p : Nat × List Nat => (p.2, p.1)) = Prod.snd := rfl
  rw [h, pyEnumerate_map_snd]

theorem wordPairs_map_snd (ws : List (List Nat)) :
    (wordPairs ws).map Prod.snd = List.range ws.length := by
  unfold wordPairs
  rw [List.map_map]
  have h : (Prod.snd ∘ fun p : Nat × List Nat => (p.2, p.1)) = Prod.fst := rfl
  rw [h, pyEnumerate_map_fst, List.range_eq_range']

theorem wordPairs_length (ws : List (List Nat)) : (wordPairs ws).length = ws.length := by
  unfold wordPairs
  rw [List.length_map, pyEnumerate_length]

theorem runPipeline_ne_400 (env : PipelineEnv) (d : List Nat) :
    runPipeline env ≠ HandlerOutcome.httpError 400 d := by
  obtain ⟨td, rwo, exo, tro⟩ := env
  cases td <;> cases rwo <;> cases exo <;> cases tro <;> simp [runPipeline]

/- Claim theorems. -/

/-- C1, counterexample: the claim "any exception raised during any of the
pipeline steps 1-5 is caught and surfaced as a 500 response whose detail
is the exception's message" is false at the concrete input
`a.mp4` when persisting the uploaded bytes (step 2) raises "disk full":
the `try/except` in the source only wraps `extract_audio` and
`transcribe_audio`, so the exception propagates uncaught instead of
becoming `HTTPException(500, "disk full")`. -/
theorem C1_counterexample :
    transcribe (str ("a.mp4")) envWriteFail = HandlerOutcome.uncaught ⟨str ("disk full")⟩ ∧
    transcribe (str ("a.mp4")) envWriteFail ≠
      HandlerOutcome.httpError 500 (str ("disk full")) := by
  constructor
  · decide
  · decide

/-- C1, amended: for every upload that passes extension validation, an
exception raised during audio extraction or transcription (steps 3-4) is
caught and surfaced as a 500 response whose detail is the exception's
textual message, distinct from the 400 validation failure; an exception
raised during temporary-directory allocation (step 1) or while persisting
the uploaded bytes (step 2) is NOT caught by the handler and propagates
uncaught. -/
theorem C1_amended (fn : List Nat) (env : PipelineEnv) (e : PyExc)
    (hacc : suffixOf (effName fn) ∈ ALLOWED_EXTENSIONS) :
    (env.tempDirOutcome = .error e → transcribe fn env = .uncaught e) ∧
    (env.tempDirOutcome = .ok () → env.readWriteOutcome = .error e →
      transcribe fn env = .uncaught e) ∧
    (env.tempDirOutcome = .ok () → env.readWriteOutcome = .ok () →
      env.extractOutcome = .error e →
      transcribe fn env = .httpError 500 e.msg) ∧
    (env.tempDirOutcome = .ok () → env.readWriteOutcome = .ok () →
      env.extractOutcome = .ok () → env.transcribeOutcome = .error e →
      transcribe fn env = .httpError 500 e.msg) := by
  unfold transcribe
  rw [if_pos hacc]
  refine ⟨?_, ?_, ?_, ?_⟩
  · intro h1
    simp [runPipeline, h1]
  · intro h1 h2
    simp [runPipeline, h1, h2]
  · intro h1 h2 h3
    simp [runPipeline, h1, h2, h3]
  · intro h1 h2 h3 h4
    simp [runPipeline, h1, h2, h3, h4]

/-- C1 witness: a failing audio extraction on `a.mp4` is surfaced as a 500
with the exception's message. -/
theorem C1_amended_witness :
    transcribe (str ("a.mp4")) envExtractFail =
      HandlerOutcome.httpError 500 (str ("boom")) :=
  (C1_amended (str ("a.mp4")) envExtractFail ⟨str ("boom")⟩ (by decide)).2.2.1 rfl rfl rfl

/-- C2: the handler rejects an upload with 400 "Unsupported file type"
exactly when the lowercased substring after the last '.' of the
(defaulted) filename is outside {mp4, mov, mkv, webm, mp3, wav, m4a}; on
rejection the result is the same for every environment, i.e. no pipeline
step (temp file, tool, API) is consulted. -/
theorem C2_extension_validation (filename : List Nat) (env env2 : PipelineEnv) :
    (transcribe filename env = HandlerOutcome.httpError 400 (str ("Unsupported file type")) ↔
      suffixOf (effName filename) ∉ ALLOWED_EXTENSIONS) ∧
    (suffixOf (effName filename) ∉ ALLOWED_EXTENSIONS →
      transcribe filename env = transcribe filename env2) := by
  by_cases hmem : suffixOf (effName filename) ∈ ALLOWED_EXTENSIONS
  · refine ⟨⟨?_, ?_⟩, ?_⟩
    · intro hres
      unfold transcribe at hres
      rw [if_pos hmem] at hres
      exact absurd hres (runPipeline_ne_400 env _)
    · intro hmem2
      exact absurd hmem hmem2
    · intro hmem2
      exact absurd hmem hmem2
  · refine ⟨⟨?_, ?_⟩, ?_⟩
    · intro _
      exact hmem
    · intro _
      unfold transcribe
      rw [if_neg hmem]
    · intro _
      unfold transcribe
      rw [if_neg hmem, if_neg hmem]

/-- C2 witness: `clip.txt` is rejected with 400 "Unsupported file type",
identically under two different environments. -/
theorem C2_witness :
    transcribe (str ("clip.txt")) envAllOk =
      HandlerOutcome.httpError 400 (str ("Unsupported file type")) ∧
    transcribe (str ("clip.txt")) envAllOk = transcribe (str ("clip.txt")) envAllOk2 :=
  ⟨((C2_extension_validation (str ("clip.txt")) envAllOk envAllOk2).1).mpr (by decide),
   (C2_extension_validation (str ("clip.txt")) envAllOk envAllOk2).2 (by decide)⟩

/-- C3, counterexample: the claim "each token matches `^[a-z0-9]+$`" is
false at the input "é" (U+00E9): Python's `isalnum()` is true for 'é', so
`tokenize` returns the token "é", which is outside `[a-z0-9]`. -/
theorem C3_counterexample :
    tokenize (str ("é")) = [str ("é")] ∧
    (tokenize (str ("é"))).all isAsciiLowerTok = false := by
  constructor
  · decide
  · decide

/-- C3, amended: for every input text the number of tokens equals the
number of whitespace-separated segments of the cleaned text, and every
token is a nonempty run of non-whitespace alphanumeric characters
containing no uppercase ASCII letter; when the input is ASCII-only,
every token matches `^[a-z0-9]+$`.  (Non-ASCII alphanumerics such as 'é'
survive into tokens, so the `^[a-z0-9]+$` character class holds only for
ASCII input.) -/
theorem C3_amended (text : List Nat) :
    (tokenize text).length = (pySplit (pyCleanup text)).length ∧
    (tokenize text).all isGeneralToken = true ∧
    (allAscii text = true → (tokenize text).all isAsciiLowerTok = true) := by
  refine ⟨?_, ?_, ?_⟩
  · rw [tokenize_eq_pySplit]
  · rw [List.all_eq_true]
    intro w hw
    obtain ⟨hne, hch⟩ := tokenize_sound text w hw
    unfold isGeneralToken
    rw [Bool.and_eq_true]
    constructor
    · cases w with
      | nil => exact absurd rfl hne
      | cons a as => rfl
    · rw [List.all_eq_true]
      intro c hc
      obtain ⟨hns, hal, _, hup, _⟩ := hch c hc
      simp [isTokenCode, hal, hns]
      omega
  · intro hascii
    rw [List.all_eq_true]
    intro w hw
    obtain ⟨hne, hch⟩ := tokenize_sound text w hw
    unfold isAsciiLowerTok
    rw [Bool.and_eq_true]
    constructor
    · cases w with
      | nil => exact absurd rfl hne
      | cons a as => rfl
    · rw [List.all_eq_true]
      intro c hc
      obtain ⟨hns, hal, hfix, hup, hlt⟩ := hch c hc
      have hc128 := hlt hascii
      have hal2 := hal
      simp only [pyIsAlnum, Bool.or_eq_true, Bool.and_eq_true, decide_eq_true_eq] at hal2
      simp only [Bool.or_eq_true, Bool.and_eq_true, decide_eq_true_eq]
      omega

/-- C3 witness: the amended properties at the concrete ASCII input
"Hello, World! 42". -/
theorem C3_amended_witness :
    (tokenize (str ("Hello, World! 42"))).length =
      (pySplit (pyCleanup (str ("Hello, World! 42")))).length ∧
    (tokenize (str ("Hello, World! 42"))).all isGeneralToken = true ∧
    (tokenize (str ("Hello, World! 42"))).all isAsciiLowerTok = true :=
  ⟨(C3_amended (str ("Hello, World! 42"))).1,
   (C3_amended (str ("Hello, World! 42"))).2.1,
   (C3_amended (str ("Hello, World! 42"))).2.2 (by decide)⟩

/-- C4, counterexample: the claim "a blank (whitespace-only) value falls
back to the default" is false at the value " " (a single space): it is
truthy in Python, so the code returns `" ".strip()`, which is the empty
string — neither "ffmpeg" nor the configured override. -/
theorem C4_counterexample :
    get_ffmpeg_executable (some (str (" "))) = [] ∧
    get_ffmpeg_executable (some (str (" "))) ≠ str ("ffmpeg") ∧
    get_ffmpeg_executable (some (str (" "))) ≠ str (" ") := by
  refine ⟨by decide, by decide, by decide⟩

/-- C4, amended: `get_ffmpeg_executable` returns "ffmpeg" when
`FFMPEG_PATH` is unset or set to the empty string, and otherwise returns
the configured override stripped of surrounding whitespace; in particular
a whitespace-only value yields the empty string, not the default. -/
theorem C4_amended (v : List Nat) (hv : v ≠ []) :
    get_ffmpeg_executable none = str ("ffmpeg") ∧
    get_ffmpeg_executable (some []) = str ("ffmpeg") ∧
    get_ffmpeg_executable (some v) = pyStrip v := by
  refine ⟨rfl, rfl, ?_⟩
  show (if v = [] then str ("ffmpeg") else pyStrip v) = pyStrip v
  rw [if_neg hv]

/-- C4 witness: the amended behaviour at the concrete override
" /usr/bin/ffmpeg " (returned stripped). -/
theorem C4_amended_witness :
    get_ffmpeg_executable none = str ("ffmpeg") ∧
    get_ffmpeg_executable (some []) = str ("ffmpeg") ∧
    get_ffmpeg_executable (some (str (" /usr/bin/ffmpeg "))) =
      pyStrip (str (" /usr/bin/ffmpeg ")) :=
  C4_amended (str (" /usr/bin/ffmpeg ")) (by decide)

set_option maxRecDepth 8000 in
/-- C5, counterexample: the claim "the prefix followed by the failure
detail truncated to 500 characters" is false when the failure detail is
500 copies of 'a': the code computes `f"transcription error: {e}"[:500]`,
truncating the whole string (result length 500), not the detail alone
(which would give length 521). -/
theorem C5_counterexample :
    transcribe_audio envSetupFail =
      Except.ok (List.take 500 (str ("transcription error: ") ++ List.replicate 500 97)) ∧
    transcribe_audio envSetupFail ≠
      Except.ok (str ("transcription error: ") ++ List.take 500 (List.replicate 500 97)) := by
  constructor
  · rfl
  · intro h
    have h3 : transcribe_audio envSetupFail =
        Except.ok (List.take 500 (str ("transcription error: ") ++ List.replicate 500 97)) := rfl
    rw [h3] at h
    have h2 := Except.ok.inj h
    exact absurd h2 (by decide)

/-- C5, amended: when a credential is configured and client setup fails
with error `e`, `transcribe_audio` returns the string
"transcription error: " ++ str(e) with the WHOLE string truncated to 500
characters (so the detail itself is effectively truncated to 479
characters). -/
theorem C5_amended (env : TranscriptionEnv) (k : List Nat) (e : PyExc)
    (hk : env.apiKey = some k) (hne : k ≠ []) (hs : env.clientSetup = .error e) :
    transcribe_audio env =
      Except.ok (List.take 500 (str ("transcription error: ") ++ e.msg)) := by
  simp [transcribe_audio, hk, hne, hs]

/-- C5 witness: the amended behaviour at a concrete environment whose
client setup fails with message "boom". -/
theorem C5_amended_witness :
    transcribe_audio envSetupFailShort =
      Except.ok (List.take 500 (str ("transcription error: ") ++ str ("boom"))) :=
  C5_amended envSetupFailShort (str ("k")) ⟨str ("boom")⟩ rfl (by decide) rfl

/-- C6: when no API credential is configured, `transcribe_audio` returns
exactly the fixed placeholder string, for every environment (hence
independently of the audio content and of the remote-call and client
outcomes, which the result never consults). -/
theorem C6_no_credential_placeholder (env : TranscriptionEnv)
    (h : env.apiKey = none) :
    transcribe_audio env = Except.ok placeholderText := by
  simp [transcribe_audio, h]

/-- C6 witness: the placeholder at a concrete credential-free
environment. -/
theorem C6_witness : transcribe_audio envNoKey = Except.ok placeholderText :=
  C6_no_credential_placeholder envNoKey rfl

/-- C7: `transcribe_audio` never raises: for every environment (credential
present or absent, client setup and remote calls succeeding or failing)
it returns a plain string. -/
theorem C7_never_raises (env : TranscriptionEnv) :
    ∃ s, transcribe_audio env = Except.ok s := by
  rcases henv : env.apiKey with _ | k
  · exact ⟨placeholderText, by simp [transcribe_audio, henv]⟩
  · by_cases hk : k = []
    · exact ⟨placeholderText, by simp [transcribe_audio, henv, hk]⟩
    · rcases hcs : env.clientSetup with e | u
      · exact ⟨List.take 500 (str ("transcription error: ") ++ e.msg),
          by simp [transcribe_audio, henv, hk, hcs]⟩
      · exact ⟨tryModels env.attempt MODEL_NAMES,
          by simp [transcribe_audio, henv, hk, hcs]⟩

/-- C8: tokenizer idempotence: tokenizing the single-space join of
`tokenize text` yields `tokenize text` again, for every input text. -/
theorem C8_tokenize_idempotent (text : List Nat) :
    tokenize (joinSp (tokenize text)) = tokenize text := by
  have hsound := tokenize_sound text
  have hclean : pyCleanup (joinSp (tokenize text)) = joinSp (tokenize text) := by
    unfold pyCleanup
    rw [List.map_map]
    apply mapIdOf
    intro c hc
    rcases joinSp_mem hc with rfl | ⟨w, hw, hcw⟩
    · decide
    · obtain ⟨_, hch⟩ := hsound w hw
      obtain ⟨hns, hal, hfix, _, _⟩ := hch c hcw
      simp [Function.comp, hfix, keepChar, hal]
  have hsp : pySplit (joinSp (tokenize text)) = tokenize text := by
    apply pySplit_joinSp
    intro w hw
    obtain ⟨hne, hch⟩ := hsound w hw
    exact ⟨hne, fun c hc => (hch c hc).1⟩
  calc tokenize (joinSp (tokenize text))
      = (pySplit (pyCleanup (joinSp (tokenize text)))).filter (fun w => !w.isEmpty) := rfl
    _ = (pySplit (joinSp (tokenize text))).filter (fun w => !w.isEmpty) := by rw [hclean]
    _ = (tokenize text).filter (fun w => !w.isEmpty) := by rw [hsp]
    _ = tokenize text := by
        rw [List.filter_eq_self]
        intro w hw
        obtain ⟨hne, _⟩ := hsound w hw
        cases w with
        | nil => exact absurd rfl hne
        | cons a as => rfl

/-- C9: in every successful `transcribe` response, the `i` components of
the words array are exactly 0..n-1 in order and the `w` components are
the tokens of the response text in original order. -/
theorem C9_words_indexing (fn : List Nat) (env : PipelineEnv)
    (text : List Nat) (ws : List (List Nat × Nat))
    (h : transcribe fn env = HandlerOutcome.response text ws) :
    ws.map Prod.snd = List.range ws.length ∧
    ws.map Prod.fst = tokenize text ∧
    ws.length = (tokenize text).length := by
  have hws : ws = wordPairs (tokenize text) := by
    unfold transcribe at h
    by_cases hmem : suffixOf (effName fn) ∈ ALLOWED_EXTENSIONS
    · rw [if_pos hmem] at h
      obtain ⟨td, rwo, exo, tro⟩ := env
      cases td <;> cases rwo <;> cases exo <;> cases tro <;> simp [runPipeline] at h
      obtain ⟨rfl, rfl⟩ := h
      rfl
    · rw [if_neg hmem] at h
      simp at h
  subst hws
  refine ⟨?_, wordPairs_map_fst _, wordPairs_length _⟩
  rw [wordPairs_map_snd, wordPairs_length]

/-- C9 witness: the indexing invariant at the concrete successful
response for text "hi there". -/
theorem C9_witness :
    ([(str ("hi"), 0), (str ("there"), 1)] : List (List Nat × Nat)).map Prod.snd =
      List.range ([(str ("hi"), 0), (str ("there"), 1)] : List (List Nat × Nat)).length ∧
    ([(str ("hi"), 0), (str ("there"), 1)] : List (List Nat × Nat)).map Prod.fst =
      tokenize (str ("hi there")) ∧
    ([(str ("hi"), 0), (str ("there"), 1)] : List (List Nat × Nat)).length =
      (tokenize (str ("hi there"))).length :=
  C9_words_indexing (str ("a.mp4")) envAllOk (str ("hi there"))
    [(str ("hi"), 0), (str ("there"), 1)] (by decide)

/-- C10: the availability probe (`_has_ffmpeg`, modelled as `hasFfmpeg`)
reports the tool available exactly when the version-query invocation
launched at all — the exit code is ignored — and returns false exactly
when launching failed with `FileNotFoundError` (any other launch failure
propagates as an exception instead of a report). -/
theorem C10_availability_probe (l : LaunchOutcome) :
    (hasFfmpeg l = Except.ok true ↔ ∃ c, l = LaunchOutcome.launched c) ∧
    (hasFfmpeg l = Except.ok false ↔ l = LaunchOutcome.fileNotFound) := by
  cases l <;> simp [hasFfmpeg]
